import Mathlib

/-!
Verification of the YAML-like configuration parser in
`scripts/airgradient.py` (functions `parse_value`, `parse_yaml` and the
inner `finalize`).

The embedding follows the Python source line by line:

* `Value` is the tagged union of trees the parser builds.  Python dicts
  are modelled as insertion-ordered association lists (`mapGet` is the
  first-match lookup, `mapSet` updates in place or appends, exactly the
  observable behaviour of a Python dict).
* `parse_value` (source lines 72-87) is the scalar lexer.  The builtins
  `int(raw)` and `float(raw)` are modelled by `pyIntParse` and
  `pyFloatParse` for ASCII input (whitespace trimming, optional sign,
  underscores between digits, and for floats the decimal/exponent and
  inf/nan forms).  A parsed float is kept as the exact decimal
  `mantissa * 10 ^ exp10` before IEEE-754 rounding; no claim observes
  the numeric value of a float.
* `parse_yaml` (source lines 90-192) is a line-driven state machine.
  In the Python code every frame holds a mutable reference into the
  tree and all reads and writes go through the innermost frame, so the
  frame stack is embedded as a zipper: `PState.cur` is the container of
  the top frame and each `Layer` records how the container one level
  up encloses it.  Popping a frame plugs the current container back
  into its parent (`plugLayer`).
* Uncaught Python exceptions that the parser can raise on unusual
  inputs (`KeyError` from lines 129/151, `TypeError` from lines
  177/180 when the container is not a dict) are modelled as the error
  outcomes `PErr.keyError` and `PErr.typeErrorAssign`; the `ValueError`
  messages of the source are modelled as the remaining `PErr`
  constructors, one per `raise` site.

All definitions are structurally recursive so that concrete runs of the
parser reduce inside the kernel.
-/

/-- The transient float value produced by the Python builtin `float`:
either a finite decimal (kept exactly as `mantissa * 10 ^ exp10`,
before IEEE-754 rounding), an infinity, or a nan. -/
inductive PyFloat where
  | finite (mantissa : Int) (exp10 : Int)
  | inf (neg : Bool)
  | nan
deriving DecidableEq

/-- The value model of the parser: scalars (string, boolean, null,
integer, float), the transient `pending` sentinel (`PENDING` in the
source, line 47), insertion-ordered mappings and sequences. -/
inductive Value where
  | str (s : String)
  | bool (b : Bool)
  | null
  | int (n : Int)
  | float (f : PyFloat)
  | pending
  | mapping (entries : List (String × Value))
  | seq (items : List Value)

/-- First-match lookup in an association list; the observable behaviour
of `d.get(k, None)` on a Python dict (keys stay unique because all
writes go through `mapSet`). -/
def mapGet : List (String × Value) → String → Option Value
  | [], _ => none
  | (k, v) :: rest, key => if k = key then some v else mapGet rest key

/-- `d[k] = v` on a Python dict: update in place when the key is
present (keeping its position), otherwise append. -/
def mapSet : List (String × Value) → String → Value → List (String × Value)
  | [], key, v => [(key, v)]
  | (k, w) :: rest, key, v =>
    if k = key then (key, v) :: rest else (k, w) :: mapSet rest key v

/-- Build a string from an explicit character list. -/
def ofChars (cs : List Char) : String := ⟨cs⟩

/-- The ASCII whitespace characters stripped by Python `str.strip()`
and by `int()` / `float()` (the unicode whitespace also stripped by
CPython does not occur in this component). -/
def isPyWs (c : Char) : Bool :=
  c = ' ' || c = '\t' || c = '\n' || c = '\r' || c = '\x0b' || c = '\x0c'

/-- `s.strip()` on a character list: drop whitespace from both ends. -/
def stripWsBoth (cs : List Char) : List Char :=
  ((cs.dropWhile isPyWs).reverse.dropWhile isPyWs).reverse

/-- `line.split("#", 1)[0]`: everything before the first `#`, the whole
line when there is none. -/
def stripComment (cs : List Char) : List Char :=
  cs.takeWhile (fun c => ¬ c = '#')

/-- `line.rstrip("\n")`: drop trailing newline characters. -/
def rstripNl (cs : List Char) : List Char :=
  (cs.reverse.dropWhile (fun c => c = '\n')).reverse

/-- Split at the first occurrence of `sep`, the two-part form of
Python `s.split(sep, 1)`; only ever called after membership of `sep`
has been checked, as in the source (lines 157/171). -/
def splitFirst (sep : Char) : List Char → List Char × List Char
  | [] => ([], [])
  | c :: cs =>
    if c = sep then ([], cs)
    else
      let p := splitFirst sep cs
      (c :: p.1, p.2)

/-- `raw.startswith(q) and raw.endswith(q)` for a one-character `q`. -/
def wrappedIn (q : Char) (cs : List Char) : Bool :=
  match cs.head?, cs.getLast? with
  | some a, some b => a = q && b = q
  | _, _ => false

/-- Numeric value of an ASCII digit. -/
def digitVal (c : Char) : Nat := c.toNat - 48

/-- Continue a digit run already holding value `acc` over `n` digits:
CPython number literals allow a single underscore between two digits.
Returns the value, the digit count, and the unconsumed rest. -/
def digitsCont : List Char → Nat → Nat → Nat × Nat × List Char
  | '_' :: c :: cs, acc, n =>
    if c.isDigit then digitsCont cs (acc * 10 + digitVal c) (n + 1)
    else (acc, n, '_' :: c :: cs)
  | c :: cs, acc, n =>
    if c.isDigit then digitsCont cs (acc * 10 + digitVal c) (n + 1)
    else (acc, n, c :: cs)
  | [], acc, n => (acc, n, [])

/-- A `digitpart` of a CPython numeric literal: one digit, then
optionally more digits with single underscores between them.  Returns
`none` when the input does not start with a digit. -/
def digitPart (cs : List Char) : Option (Nat × Nat × List Char) :=
  match cs with
  | c :: rest => if c.isDigit then some (digitsCont rest (digitVal c) 1) else none
  | [] => none

/-- Sign character handling shared by `int()` and `float()`. -/
def takeSign : List Char → Bool × List Char
  | '+' :: r => (false, r)
  | '-' :: r => (true, r)
  | r => (false, r)

/-- The builtin `int(raw)` on ASCII input: strip whitespace, optional
sign, then a digit run covering the whole rest; `none` models the
`ValueError` caught at source line 86. -/
def pyIntParse (s : String) : Option Int :=
  let cs := stripWsBoth s.data
  let sp := takeSign cs
  match digitPart sp.2 with
  | some (v, _, []) => some (if sp.1 then -(v : Int) else (v : Int))
  | _ => none

/-- Exponent suffix of a float literal, applied to an already parsed
mantissa `m` and decimal exponent `e`; the whole rest must be
consumed. -/
def parseExp (m : Int) (e : Int) (cs : List Char) : Option (Int × Int) :=
  match cs with
  | [] => some (m, e)
  | c :: rest =>
    if c = 'e' || c = 'E' then
      let sp := takeSign rest
      match digitPart sp.2 with
      | some (ev, _, []) => some (m, e + (if sp.1 then -(ev : Int) else (ev : Int)))
      | _ => none
    else none

/-- The decimal part of a CPython float literal after the sign:
`digitpart [. digitpart?] | . digitpart`, then an optional exponent. -/
def parseDecimal (cs : List Char) : Option (Int × Int) :=
  match digitPart cs with
  | some (ip, _, rest) =>
    match rest with
    | '.' :: rest2 =>
      match digitPart rest2 with
      | some (fp, fn, rest3) =>
        parseExp ((ip : Int) * (10 : Int) ^ fn + (fp : Int)) (-(fn : Int)) rest3
      | none => parseExp (ip : Int) 0 rest2
    | _ => parseExp (ip : Int) 0 rest
  | none =>
    match cs with
    | '.' :: rest2 =>
      match digitPart rest2 with
      | some (fp, fn, rest3) => parseExp (fp : Int) (-(fn : Int)) rest3
      | none => none
    | _ => none

/-- The builtin `float(raw)` on ASCII input: strip whitespace, optional
sign, then `inf`/`infinity`/`nan` (case-insensitive) or a decimal
literal; `none` models the `ValueError` caught at source line 86. -/
def pyFloatParse (s : String) : Option PyFloat :=
  let cs := stripWsBoth s.data
  let sp := takeSign cs
  let low := sp.2.map Char.toLower
  if low = "inf".data || low = "infinity".data then some (.inf sp.1)
  else if low = "nan".data then some .nan
  else
    match parseDecimal sp.2 with
    | some (m, e) => some (.finite (if sp.1 then -m else m) e)
    | none => none

/-- The scalar lexer `parse_value` (source lines 72-87): a quoted token
loses its quotes; case-insensitive `true`/`false` is a boolean and
`null`/`none` is null; otherwise a token with a `.` is tried as a
float and one without as an integer, and on failure the raw token is
returned as a string.  Total by construction. -/
def parse_value (raw : String) : Value :=
  let cs := raw.data
  if wrappedIn '"' cs then .str (ofChars (cs.drop 1).dropLast)
  else if wrappedIn '\'' cs then .str (ofChars (cs.drop 1).dropLast)
  else
    let low := cs.map Char.toLower
    if low = "true".data then .bool true
    else if low = "false".data then .bool false
    else if low = "null".data then .null
    else if low = "none".data then .null
    else if cs.contains '.' then
      match pyFloatParse raw with
      | some f => .float f
      | none => .str raw
    else
      match pyIntParse raw with
      | some n => .int n
      | none => .str raw

/-- The parse-time errors of `parse_yaml`, one constructor per failure
site of the source (the Python code raises `ValueError` with a
message; only the site is modelled).  `keyError` and `typeErrorAssign`
model the uncaught `KeyError` (lines 129/151) and `TypeError` (lines
177/180) the code can also raise. -/
inductive PErr where
  | oddIndentation
  | brokenIndentContext
  | invalidIndentJump
  | missingNestedKey
  | emptySequenceExtend
  | unsupportedContainer
  | listItemWithoutKey
  | expectedListForItem
  | missingSeparator
  | keyError
  | typeErrorAssign
deriving DecidableEq

/-- The indentation and last declared key of one open frame (source
lines 94-98); the container itself lives in the zipper. -/
structure Frame where
  indent : Nat
  lastKey : Option String

/-- One zipper layer: how the container of the frame one level up
encloses the current container.  `dict fr es k` means the parent frame
is `fr`, its container is the mapping `es`, and the current container
sits at key `k` (plugging overwrites entry `k`).  `list fr init` means
the parent container is a sequence whose elements before the current
one are `init` (plugging appends the current container last). -/
inductive Layer where
  | dict (fr : Frame) (entries : List (String × Value)) (key : String)
  | list (fr : Frame) (init : List Value)

/-- The state of the line loop: the top frame, its container, and the
layers up to the root. -/
structure PState where
  top : Frame
  cur : Value
  layers : List Layer

/-- Plug the current container back into the layer one level up,
recovering the parent frame and its container (what popping a Python
frame leaves visible from the parent reference). -/
def plugLayer (c : Value) : Layer → Frame × Value
  | .dict fr es k => (fr, .mapping (mapSet es k c))
  | .list fr init => (fr, .seq (init ++ [c]))

/-- The dedent loop of source lines 112-115: pop frames while the top
frame is deeper than the current line; popping past the root raises
`Invalid indentation structure`. -/
def popFramesAux (indent : Nat) (top : Frame) (cur : Value) :
    List Layer → Except PErr PState
  | [] =>
    if indent < top.indent then .error .brokenIndentContext
    else .ok ⟨top, cur, []⟩
  | l :: rest =>
    if indent < top.indent then
      let p := plugLayer cur l
      popFramesAux indent p.1 p.2 rest
    else .ok ⟨top, cur, l :: rest⟩

/-- Does the stripped line begin a sequence item (`- ` prefix)? -/
def startsDash : List Char → Bool
  | '-' :: ' ' :: _ => true
  | _ => false

/-- Is the value at hand the `PENDING` sentinel (`is PENDING` in the
source)? -/
def isPendingOpt : Option Value → Bool
  | some .pending => true
  | _ => false

/-- The indent-increase branch of source lines 118-141: a strictly
deeper line must step by exactly 2; under a mapping frame the last
declared key is resolved (a `Pending` becomes an empty sequence when
the new line is a `- ` item, else an empty mapping) and descended
into; under a sequence frame the last element is resolved (a `Pending`
item becomes an empty mapping) and descended into; any other container
is rejected. -/
def descend (indent : Nat) (stripped : List Char) (st : PState) :
    Except PErr PState :=
  if indent > st.top.indent then
    if indent ≠ st.top.indent + 2 then .error .invalidIndentJump
    else
      match st.cur with
      | .mapping es =>
        match st.top.lastKey with
        | none => .error .missingNestedKey
        | some k =>
          let es1 :=
            if isPendingOpt (mapGet es k) then
              if startsDash stripped then mapSet es k (.seq [])
              else mapSet es k (.mapping [])
            else es
          match mapGet es1 k with
          | none => .error .keyError
          | some v => .ok ⟨⟨indent, none⟩, v, .dict st.top es1 k :: st.layers⟩
      | .seq items =>
        match items.getLast? with
        | none => .error .emptySequenceExtend
        | some last =>
          let last' := match last with | .pending => Value.mapping [] | v => v
          .ok ⟨⟨indent, none⟩, last', .list st.top items.dropLast :: st.layers⟩
      | _ => .error .unsupportedContainer
  else .ok st

/-- What a sequence-item line does once the governing list is found
(source lines 154-168): an empty remainder appends `Pending`; a
remainder with a `:` appends a one-entry mapping (value `Pending` when
empty) and records the key; otherwise the scalar remainder is
appended. -/
inductive ItemAct where
  | pend
  | scalarItem (v : Value)
  | keyedItem (k : String) (v : Value)

/-- Classify the remainder of a `- ` line, mirroring source lines
154-168. -/
def itemAction (itemText : List Char) : ItemAct :=
  if itemText = [] then .pend
  else if itemText.contains ':' then
    let p := splitFirst ':' itemText
    let k := ofChars (stripWsBoth p.1)
    let vtxt := stripWsBoth p.2
    if vtxt = [] then .keyedItem k .pending
    else .keyedItem k (parse_value (ofChars vtxt))
  else .scalarItem (parse_value (ofChars itemText))

/-- The value appended for a sequence-item action. -/
def itemValue : ItemAct → Value
  | .pend => .pending
  | .scalarItem v => v
  | .keyedItem k v => .mapping [(k, v)]

/-- The `last_key` after a sequence-item action: only a keyed item
updates it (source line 166). -/
def itemKey : ItemAct → Option String → Option String
  | .keyedItem k _, _ => some k
  | _, old => old

/-- The sequence-item branch of source lines 143-169: find the
governing list (under a mapping frame this is the slot of the last
declared key, resolving a `Pending` to an empty list; a missing key
context, a missing dict entry, or a non-list slot each fail as in the
source) and append the item. -/
def seqItemStep (stripped : List Char) (st : PState) : Except PErr PState :=
  let act := itemAction (stripWsBoth (stripped.drop 2))
  match st.cur with
  | .mapping es =>
    match st.top.lastKey with
    | none => .error .listItemWithoutKey
    | some k =>
      let es1 := if isPendingOpt (mapGet es k) then mapSet es k (.seq []) else es
      match mapGet es1 k with
      | none => .error .keyError
      | some (.seq xs) =>
        .ok ⟨⟨st.top.indent, itemKey act st.top.lastKey⟩,
             .mapping (mapSet es1 k (.seq (xs ++ [itemValue act]))), st.layers⟩
      | some _ => .error .expectedListForItem
  | .seq xs =>
    .ok ⟨⟨st.top.indent, itemKey act st.top.lastKey⟩,
         .seq (xs ++ [itemValue act]), st.layers⟩
  | _ => .error .expectedListForItem

/-- The `key: value` branch of source lines 171-181: a line without a
`:` fails; otherwise the key is bound in the frame container (to
`Pending` when the value part is empty, else to the lexed scalar) and
recorded as `last_key`.  On a non-dict container the Python assignment
`container[key] = ...` raises `TypeError`. -/
def keyValueStep (stripped : List Char) (st : PState) : Except PErr PState :=
  if stripped.contains ':' = false then .error .missingSeparator
  else
    let p := splitFirst ':' stripped
    let k := ofChars (stripWsBoth p.1)
    let vtxt := stripWsBoth p.2
    match st.cur with
    | .mapping es =>
      let newVal := if vtxt = [] then Value.pending else parse_value (ofChars vtxt)
      .ok ⟨⟨st.top.indent, some k⟩, .mapping (mapSet es k newVal), st.layers⟩
    | _ => .error .typeErrorAssign

/-- The per-line preprocessing of source line 104: strip the comment
and trailing newlines. -/
def effLine (raw : String) : List Char := rstripNl (stripComment raw.data)

/-- The body of the line loop after preprocessing (source lines
105-181): skip blank lines, reject odd indentation, pop dedented
frames, descend on an indent increase, then dispatch on the line
shape. -/
def lineCore (st : PState) (line : List Char) : Except PErr PState :=
  if stripWsBoth line = [] then .ok st
  else
    let indent := (line.takeWhile (fun c => c = ' ')).length
    if indent % 2 ≠ 0 then .error .oddIndentation
    else
      let stripped := stripWsBoth line
      match popFramesAux indent st.top st.cur st.layers with
      | .error e => .error e
      | .ok st1 =>
        match descend indent stripped st1 with
        | .error e => .error e
        | .ok st2 =>
          if startsDash stripped then seqItemStep stripped st2
          else keyValueStep stripped st2

/-- One iteration of the loop at source lines 103-181. -/
def processLine (st : PState) (raw : String) : Except PErr PState :=
  lineCore st (effLine raw)

/-- A line terminator recognised by Python `str.splitlines`. -/
def isLineBreak (c : Char) : Bool :=
  c = '\n' || c = '\r' || c = '\x0b' || c = '\x0c' || c = '\x1c' ||
  c = '\x1d' || c = '\x1e' || c = '\x85' || c = '\u2028' || c = '\u2029'

/-- Worker for `pySplitlines`, carrying the current line reversed. -/
def splitlinesAux : List Char → List Char → List String
  | [], acc => if acc = [] then [] else [ofChars acc.reverse]
  | '\r' :: '\n' :: cs, acc => ofChars acc.reverse :: splitlinesAux cs []
  | c :: cs, acc =>
    if isLineBreak c then ofChars acc.reverse :: splitlinesAux cs []
    else splitlinesAux cs (c :: acc)

/-- `text.splitlines()`: split at line terminators, no trailing empty
line. -/
def pySplitlines (s : String) : List String := splitlinesAux s.data []

/-- Run the loop of source lines 103-181 over a list of lines,
stopping at the first error. -/
def runLines (st : PState) : List String → Except PErr PState
  | [] => .ok st
  | l :: ls =>
    match processLine st l with
    | .error e => .error e
    | .ok st' => runLines st' ls

/-- Recover the root container from the final zipper state (in the
Python code the root dict is always reachable from the bottom frame;
here the remaining layers are plugged in turn). -/
def finalRoot (c : Value) : List Layer → Value
  | [] => c
  | l :: rest => finalRoot (plugLayer c l).2 rest

mutual

/-- The `finalize` pass of source lines 183-190: remaining `Pending`
values become empty mappings, mappings and sequences recurse, scalars
pass through. -/
def finalize : Value → Value
  | .pending => .mapping []
  | .mapping es => .mapping (finalizeEntries es)
  | .seq xs => .seq (finalizeItems xs)
  | v => v

/-- `finalize` over the entries of a mapping. -/
def finalizeEntries : List (String × Value) → List (String × Value)
  | [] => []
  | (k, v) :: rest => (k, finalize v) :: finalizeEntries rest

/-- `finalize` over the items of a sequence. -/
def finalizeItems : List Value → List Value
  | [] => []
  | v :: rest => finalize v :: finalizeItems rest

end

/-- The initial state: one frame at indent 0 owning the empty root
mapping (source line 100). -/
def initState : PState := ⟨⟨0, none⟩, .mapping [], []⟩

/-- Run the parser over an explicit list of lines and finalize. -/
def parseLines (ls : List String) : Except PErr Value :=
  match runLines initState ls with
  | .error e => .error e
  | .ok st => .ok (finalize (finalRoot st.cur st.layers))

/-- `parse_yaml` (source lines 90-192): split the text into lines, run
the state machine, finalize the root mapping. -/
def parse_yaml (text : String) : Except PErr Value :=
  parseLines (pySplitlines text)

/-- Is the value a mapping or a sequence (the containers the state
machine can nest into)? -/
def isContainer : Value → Bool
  | .mapping _ => true
  | .seq _ => true
  | _ => false

mutual

/-- No `Pending` sentinel occurs anywhere in the tree. -/
def noPending : Value → Bool
  | .pending => false
  | .mapping es => noPendingEntries es
  | .seq xs => noPendingItems xs
  | _ => true

/-- `noPending` over the entries of a mapping. -/
def noPendingEntries : List (String × Value) → Bool
  | [] => true
  | (_, v) :: rest => noPending v && noPendingEntries rest

/-- `noPending` over the items of a sequence. -/
def noPendingItems : List Value → Bool
  | [] => true
  | v :: rest => noPending v && noPendingItems rest

end

example : parse_yaml "a: 1\nb: two\n" =
    .ok (.mapping [("a", .int 1), ("b", .str "two")]) := rfl
example : parse_yaml "a:\n  b: 1\n" =
    .ok (.mapping [("a", .mapping [("b", .int 1)])]) := rfl
example : parse_yaml "items:\n  - 1\n  - 2\n" =
    .ok (.mapping [("items", .seq [.int 1, .int 2])]) := rfl
example : parse_yaml "a:\n" = .ok (.mapping [("a", .mapping [])]) := rfl
example : parse_yaml "a:\n b: 1\n" = .error .oddIndentation := rfl
example : parse_yaml "a:\n    b: 1\n" = .error .invalidIndentJump := rfl
example : parse_yaml "devices:\n  - name: kitchen\n    hostname: 10.0.0.5\n" =
    .ok (.mapping [("devices",
      .seq [.mapping [("name", .str "kitchen"), ("hostname", .str "10.0.0.5")]])]) := rfl

example : parse_value "42" = .int 42 := rfl
example : parse_value "-7" = .int (-7) := rfl
example : parse_value "true" = .bool true := rfl
example : parse_value "TRUE" = .bool true := rfl
example : parse_value "null" = .null := rfl
example : parse_value "None" = .null := rfl
example : parse_value "3.5" = .float (.finite 35 (-1)) := rfl
example : parse_value "abc" = .str "abc" := rfl
example : parse_value "10.0.0.5" = .str "10.0.0.5" := rfl
example : parse_value "'x'" = .str "x" := rfl
example : parse_value "\"a\"" = .str "a" := rfl
example : parse_value "1e5" = .str "1e5" := rfl
example : parse_value "1.5e3" = .float (.finite 15 2) := rfl

theorem mapGet_mapSet_self (es : List (String × Value)) (k : String) (v : Value) :
    mapGet (mapSet es k v) k = some v := by
  induction es with
  | nil => simp [mapSet, mapGet]
  | cons p rest ih =>
    obtain ⟨k', w⟩ := p
    by_cases h : k' = k
    · simp [mapSet, mapGet, h]
    · simp [mapSet, mapGet, h, ih]

mutual

theorem noPending_finalize : ∀ v : Value, noPending (finalize v) = true
  | .pending => rfl
  | .str _ => rfl
  | .bool _ => rfl
  | .null => rfl
  | .int _ => rfl
  | .float _ => rfl
  | .mapping es => by
    rw [finalize, noPending]
    exact noPendingEntries_finalizeEntries es
  | .seq xs => by
    rw [finalize, noPending]
    exact noPendingItems_finalizeItems xs

theorem noPendingEntries_finalizeEntries :
    ∀ es : List (String × Value), noPendingEntries (finalizeEntries es) = true
  | [] => rfl
  | (k, v) :: rest => by
    rw [finalizeEntries, noPendingEntries]
    rw [noPending_finalize v, noPendingEntries_finalizeEntries rest]
    rfl

theorem noPendingItems_finalizeItems :
    ∀ xs : List Value, noPendingItems (finalizeItems xs) = true
  | [] => rfl
  | v :: rest => by
    rw [finalizeItems, noPendingItems]
    rw [noPending_finalize v, noPendingItems_finalizeItems rest]
    rfl

end


theorem isContainer_plugLayer (c : Value) (l : Layer) :
    isContainer (plugLayer c l).2 = true := by
  cases l <;> rfl

theorem popFramesAux_error (indent : Nat) (top : Frame) (cur : Value)
    (layers : List Layer) (e : PErr)
    (h : popFramesAux indent top cur layers = .error e) :
    e = .brokenIndentContext := by
  induction layers generalizing top cur with
  | nil =>
    simp only [popFramesAux] at h
    split at h
    · injection h with h'
      exact h'.symm
    · cases h
  | cons l rest ih =>
    simp only [popFramesAux] at h
    split at h
    · exact ih _ _ h
    · cases h

theorem popFramesAux_ok_container (indent : Nat) (top : Frame) (cur : Value)
    (layers : List Layer) (st1 : PState)
    (hc : isContainer cur = true)
    (h : popFramesAux indent top cur layers = .ok st1) :
    isContainer st1.cur = true := by
  induction layers generalizing top cur with
  | nil =>
    simp only [popFramesAux] at h
    split at h
    · cases h
    · cases h
      exact hc
  | cons l rest ih =>
    simp only [popFramesAux] at h
    split at h
    · exact ih _ _ (isContainer_plugLayer cur l) h
    · cases h
      exact hc

theorem descend_error_not_unsupported (indent : Nat) (stripped : List Char)
    (st : PState) (hc : isContainer st.cur = true) :
    descend indent stripped st ≠ .error .unsupportedContainer := by
  intro h
  obtain ⟨top, cur, layers⟩ := st
  simp only [descend] at h
  split at h
  · split at h
    · cases h
    · cases cur with
      | mapping es =>
        dsimp only at h
        split at h
        · cases h
        · split at h
          · cases h
          · cases h
      | seq items =>
        dsimp only at h
        split at h
        · cases h
        · cases h
      | str s => simp [isContainer] at hc
      | bool b => simp [isContainer] at hc
      | null => simp [isContainer] at hc
      | int n => simp [isContainer] at hc
      | float f => simp [isContainer] at hc
      | pending => simp [isContainer] at hc
  · cases h

theorem seqItemStep_ok_container (stripped : List Char) (st st' : PState)
    (h : seqItemStep stripped st = .ok st') : isContainer st'.cur = true := by
  obtain ⟨top, cur, layers⟩ := st
  simp only [seqItemStep] at h
  cases cur with
  | mapping es =>
    dsimp only at h
    split at h
    · cases h
    · split at h
      · cases h
      · cases h
        rfl
      · cases h
  | seq xs =>
    cases h
    rfl
  | str s => cases h
  | bool b => cases h
  | null => cases h
  | int n => cases h
  | float f => cases h
  | pending => cases h

theorem seqItemStep_error_not_unsupported (stripped : List Char) (st : PState) :
    seqItemStep stripped st ≠ .error .unsupportedContainer := by
  intro h
  obtain ⟨top, cur, layers⟩ := st
  simp only [seqItemStep] at h
  cases cur with
  | mapping es =>
    dsimp only at h
    split at h
    · cases h
    · split at h
      · cases h
      · cases h
      · cases h
  | seq xs => cases h
  | str s => cases h
  | bool b => cases h
  | null => cases h
  | int n => cases h
  | float f => cases h
  | pending => cases h

theorem keyValueStep_ok_container (stripped : List Char) (st st' : PState)
    (h : keyValueStep stripped st = .ok st') : isContainer st'.cur = true := by
  obtain ⟨top, cur, layers⟩ := st
  simp only [keyValueStep] at h
  split at h
  · cases h
  · cases cur with
    | mapping es =>
      cases h
      rfl
    | seq xs => cases h
    | str s => cases h
    | bool b => cases h
    | null => cases h
    | int n => cases h
    | float f => cases h
    | pending => cases h

theorem keyValueStep_error_not_unsupported (stripped : List Char) (st : PState) :
    keyValueStep stripped st ≠ .error .unsupportedContainer := by
  intro h
  obtain ⟨top, cur, layers⟩ := st
  simp only [keyValueStep] at h
  split at h
  · cases h
  · cases cur with
    | mapping es => cases h
    | seq xs => cases h
    | str s => cases h
    | bool b => cases h
    | null => cases h
    | int n => cases h
    | float f => cases h
    | pending => cases h

theorem processLine_not_unsupported (st : PState) (raw : String)
    (hc : isContainer st.cur = true) :
    processLine st raw ≠ .error .unsupportedContainer := by
  intro h
  simp only [processLine, lineCore] at h
  split at h
  · cases h
  · split at h
    · cases h
    · split at h
      · rename_i e heq
        injection h with h'
        rw [h'] at heq
        have hb := popFramesAux_error _ _ _ _ _ heq
        cases hb
      · rename_i st1 heq
        have hc1 := popFramesAux_ok_container _ _ _ _ _ hc heq
        split at h
        · rename_i e heq2
          injection h with h'
          rw [h'] at heq2
          exact descend_error_not_unsupported _ _ _ hc1 heq2
        · split at h
          · exact seqItemStep_error_not_unsupported _ _ h
          · exact keyValueStep_error_not_unsupported _ _ h

theorem processLine_ok_container (st : PState) (raw : String) (st' : PState)
    (hc : isContainer st.cur = true)
    (h : processLine st raw = .ok st') : isContainer st'.cur = true := by
  simp only [processLine, lineCore] at h
  split at h
  · cases h
    exact hc
  · split at h
    · cases h
    · split at h
      · cases h
      · split at h
        · cases h
        · split at h
          · exact seqItemStep_ok_container _ _ _ h
          · exact keyValueStep_ok_container _ _ _ h

theorem runLines_not_unsupported (ls : List String) (st : PState)
    (hc : isContainer st.cur = true) :
    runLines st ls ≠ .error .unsupportedContainer := by
  induction ls generalizing st with
  | nil => intro h; cases h
  | cons l rest ih =>
    intro h
    simp only [runLines] at h
    split at h
    · rename_i e heq
      injection h with h'
      rw [h'] at heq
      exact processLine_not_unsupported _ _ hc heq
    · rename_i st1 heq
      exact ih _ (processLine_ok_container _ _ _ hc heq) h

theorem popFramesAux_no_pop (indent : Nat) (top : Frame) (cur : Value)
    (layers : List Layer) (h : ¬ indent < top.indent) :
    popFramesAux indent top cur layers = .ok ⟨top, cur, layers⟩ := by
  cases layers <;> simp [popFramesAux, h]

/-- C9: the `Unsupported container at indent` branch (source line 139)
is unreachable: `parse_yaml` never returns this error, because every
state reachable by the line loop keeps the top-frame container a
mapping or a sequence (a line that descends into a scalar fails inside
the same iteration, in `seqItemStep` or `keyValueStep`, before any
deeper line is processed). -/
theorem unsupported_container_never_raised (text : String) :
    (parse_yaml text = .error .unsupportedContainer) = False := by
  apply eq_false
  intro h
  simp only [parse_yaml, parseLines] at h
  split at h
  · rename_i e heq
    injection h with h'
    rw [h'] at heq
    exact runLines_not_unsupported (pySplitlines text) initState rfl heq
  · cases h

/-- C4: the three-line device document parses to a single sequence
item carrying both keys: the line indented to the content column of
the `- ` marker extends the same map entry (the sequence's last
element), not a new item. -/
theorem sequence_of_mappings_same_item :
    parse_yaml "devices:\n  - name: kitchen\n    hostname: 10.0.0.5\n" =
      .ok (.mapping [("devices",
        .seq [.mapping [("name", .str "kitchen"),
                        ("hostname", .str "10.0.0.5")]])]) := rfl

/-- C10: a key bound twice at the same level raises no duplicate-key
error and the later line wins, at the root and in a nested mapping;
in general `mapSet` (the embedding of `container[key] = value`,
source lines 177/180) silently overwrites, as the final conjunct
states. -/
theorem duplicate_key_last_wins :
    parse_yaml "a: 1\na: 2\n" = .ok (.mapping [("a", .int 2)]) ∧
    parse_yaml "m:\n  a: one\n  a: 2\n" =
      .ok (.mapping [("m", .mapping [("a", .int 2)])]) ∧
    ∀ (es : List (String × Value)) (k : String) (v : Value),
      mapGet (mapSet es k v) k = some v :=
  ⟨rfl, rfl, mapGet_mapSet_self⟩

/-- C5: every successful parse yields a tree without `Pending` (the
finalizer of source lines 183-190 turns each leftover `Pending` into
an empty mapping, recurses through mappings and sequences and leaves
scalars unchanged), and in particular a bare `a:` with nothing below
parses to an empty mapping under `a`. -/
theorem finalize_no_pending :
    (∀ (text : String) (v : Value),
      parse_yaml text = .ok v → noPending v = true) ∧
    parse_yaml "a:\n" = .ok (.mapping [("a", .mapping [])]) := by
  constructor
  · intro text v h
    simp only [parse_yaml, parseLines] at h
    split at h
    · cases h
    · injection h with h'
      rw [← h']
      exact noPending_finalize _
  · rfl

/-- Witness for C5 at the input `a:`. -/
theorem finalize_no_pending_witness :
    noPending (Value.mapping [("a", Value.mapping [])]) = true :=
  finalize_no_pending.1 "a:\n" (Value.mapping [("a", Value.mapping [])])
    finalize_no_pending.2

theorem stripComment_idem (cs : List Char) :
    stripComment (stripComment cs) = stripComment cs := by
  simp only [stripComment]
  exact List.takeWhile_idem

/-- C2 fails on the code: comment stripping at source line 104 splits
at the first `#` with no regard for quoting, so `key: "a#b"` parses
with `key` bound to the two-character string consisting of a double
quote and `a` (the text before the `#`), not to `a#b`. -/
theorem comment_in_quotes_truncated_cex :
    parse_yaml "key: \"a#b\"" = .ok (.mapping [("key", .str "\"a")]) ∧
    Value.str "\"a" ≠ Value.str "a#b" := by
  refine ⟨rfl, fun h => ?_⟩
  injection h with h'
  exact absurd h' (by decide)

/-- C2 amended: every line is processed as the text before its first
`#`, quoted or not (so a `#` inside a quoted scalar still starts a
comment and truncates the value); `key: "a#b"` parses with `key`
bound to the string `"a` kept verbatim. -/
theorem comment_strip_at_first_hash :
    (∀ (st : PState) (raw : String),
      processLine st raw = processLine st (ofChars (stripComment raw.data))) ∧
    parse_yaml "key: \"a#b\"" = .ok (.mapping [("key", .str "\"a")]) := by
  constructor
  · intro st raw
    show lineCore st (rstripNl (stripComment raw.data)) =
      lineCore st (rstripNl (stripComment (stripComment raw.data)))
    rw [stripComment_idem]
  · rfl

/-- C3 fails on the code: after `- key:` (which appends the one-entry
mapping with `key` pending and records `last_key`), a line indented 2
columns deeper than the `- ` marker descends into the sequence's last
element (source lines 130-137), so its content becomes a sibling key
of `key` in the same item mapping; `key` itself never receives the
deeper content and finalizes to an empty mapping. -/
theorem seq_item_bare_key_sibling_cex :
    parse_yaml "a:\n  - key:\n    b: 1\n" =
      .ok (.mapping [("a",
        .seq [.mapping [("key", .mapping []), ("b", .int 1)]])]) ∧
    parse_yaml "a:\n  - key:\n    b: 1\n" ≠
      .ok (.mapping [("a",
        .seq [.mapping [("key", .mapping [("b", .int 1)])]])]) := by
  have base : parse_yaml "a:\n  - key:\n    b: 1\n" =
      .ok (.mapping [("a",
        .seq [.mapping [("key", .mapping []), ("b", .int 1)]])]) := rfl
  refine ⟨base, fun h => ?_⟩
  rw [base] at h
  injection h with h'
  simp at h'

/-- C3 amended: a `- key:` item line appends the one-entry mapping
with `key` pending and sets the frame's `last_key` to `key`, exactly
as the source does at lines 157-166; but a following line indented 2
columns deeper than the marker attaches its content as a sibling
entry in the same item mapping (reached through the sequence's last
element, not through `last_key`), while the pending `key` finalizes
to an empty mapping. -/
theorem seq_item_bare_key_behavior :
    (∀ (st : PState) (xs : List Value),
      st.top.indent = 0 → st.cur = .seq xs →
      processLine st "- key:" =
        .ok ⟨⟨0, some "key"⟩,
             .seq (xs ++ [.mapping [("key", .pending)]]), st.layers⟩) ∧
    parse_yaml "a:\n  - key:\n    b: 1\n" =
      .ok (.mapping [("a",
        .seq [.mapping [("key", .mapping []), ("b", .int 1)]])]) := by
  constructor
  · intro st xs hind hcur
    obtain ⟨⟨ind, lk⟩, cur, layers⟩ := st
    simp only at hind hcur
    subst hind
    subst hcur
    cases layers <;> rfl
  · rfl

/-- Witness for C3 amended: a `- key:` line under an empty sequence
frame at indent 0. -/
theorem seq_item_bare_key_behavior_witness :
    processLine ⟨⟨0, none⟩, Value.seq [], []⟩ "- key:" =
      .ok ⟨⟨0, some "key"⟩,
           Value.seq [Value.mapping [("key", Value.pending)]], []⟩ :=
  seq_item_bare_key_behavior.1 ⟨⟨0, none⟩, Value.seq [], []⟩ [] rfl rfl

/-- C1: when the top frame is a mapping whose last declared key still
holds `Pending` (a bare `key:` line) and the next line is indented
exactly 2 columns deeper, `descend` (source lines 118-141) resolves
the pending slot by the shape of that first child line alone: an
empty sequence exactly when the line starts with `- `, an empty
mapping otherwise, and descends into the resolved container. -/
theorem pending_resolved_by_first_child_shape
    (st : PState) (es : List (String × Value)) (k : String)
    (stripped : List Char)
    (hcur : st.cur = .mapping es) (hlk : st.top.lastKey = some k)
    (hpend : mapGet es k = some .pending) :
    descend (st.top.indent + 2) stripped st =
      .ok ⟨⟨st.top.indent + 2, none⟩,
           (if startsDash stripped then Value.seq [] else Value.mapping []),
           Layer.dict st.top
             (mapSet es k
               (if startsDash stripped then Value.seq [] else Value.mapping []))
             k :: st.layers⟩ := by
  obtain ⟨top, cur, layers⟩ := st
  simp only at hcur hlk ⊢
  subst hcur
  have h1 : top.indent < top.indent + 2 := by omega
  cases hd : startsDash stripped <;>
    simp [descend, h1, hlk, hpend, isPendingOpt, hd, mapGet_mapSet_self]

/-- Witness for C1: a pending key `a` at indent 0 with the child line
`- 1` resolves to an empty sequence. -/
theorem pending_resolved_by_first_child_shape_witness :
    descend 2 ['-', ' ', '1']
        ⟨⟨0, some "a"⟩, Value.mapping [("a", Value.pending)], []⟩ =
      .ok ⟨⟨2, none⟩, Value.seq [],
           [Layer.dict ⟨0, some "a"⟩ [("a", Value.seq [])] "a"]⟩ :=
  pending_resolved_by_first_child_shape
    ⟨⟨0, some "a"⟩, Value.mapping [("a", Value.pending)], []⟩
    [("a", Value.pending)] "a" ['-', ' ', '1'] rfl rfl rfl

/-- C6: whenever a non-blank line's even indentation still strictly
exceeds the top frame's indentation after dedent popping and the
increase is not exactly 2 columns, the line fails with the invalid
indentation jump error (source lines 118-120); in particular the
4-space jump `a:` / `    b: 1` fails with it. -/
theorem invalid_indent_jump_rejected :
    (∀ (st st1 : PState) (raw : String),
      stripWsBoth (effLine raw) ≠ [] →
      ((effLine raw).takeWhile (fun c => c = ' ')).length % 2 = 0 →
      popFramesAux ((effLine raw).takeWhile (fun c => c = ' ')).length
          st.top st.cur st.layers = .ok st1 →
      st1.top.indent < ((effLine raw).takeWhile (fun c => c = ' ')).length →
      ((effLine raw).takeWhile (fun c => c = ' ')).length ≠ st1.top.indent + 2 →
      processLine st raw = .error .invalidIndentJump) ∧
    parse_yaml "a:\n    b: 1\n" = .error .invalidIndentJump := by
  constructor
  · intro st st1 raw hnb heven hpop hgt hne
    simp [processLine, lineCore, descend, hnb, heven, hpop, hgt, hne]
  · rfl

/-- Witness for C6: the state after the line `a:` receives the line
`    b: 1` (indent 4, a jump of 4 over the root frame). -/
theorem invalid_indent_jump_rejected_witness :
    processLine ⟨⟨0, some "a"⟩, Value.mapping [("a", Value.pending)], []⟩
        "    b: 1" = .error .invalidIndentJump :=
  invalid_indent_jump_rejected.1
    ⟨⟨0, some "a"⟩, Value.mapping [("a", Value.pending)], []⟩
    ⟨⟨0, some "a"⟩, Value.mapping [("a", Value.pending)], []⟩
    "    b: 1" (by decide) (by decide) rfl (by decide) (by decide)

/-- C7: the scalar lexer is total by construction (first conjunct, a
`Value` exists for every token), and any token that is not
quote-wrapped, is no boolean or null literal, and fails the numeric
parse selected by the presence of `.` comes back as the verbatim
string (source lines 82-87). -/
theorem parse_value_total_defaults_to_string :
    (∀ raw : String, ∃ v : Value, parse_value raw = v) ∧
    (∀ raw : String,
      wrappedIn '"' raw.data = false →
      wrappedIn '\'' raw.data = false →
      raw.data.map Char.toLower ≠ "true".data →
      raw.data.map Char.toLower ≠ "false".data →
      raw.data.map Char.toLower ≠ "null".data →
      raw.data.map Char.toLower ≠ "none".data →
      (raw.data.contains '.' = true → pyFloatParse raw = none) →
      (raw.data.contains '.' = false → pyIntParse raw = none) →
      parse_value raw = .str raw) := by
  constructor
  · intro raw
    exact ⟨_, rfl⟩
  · intro raw h1 h2 h3 h4 h5 h6 hf hi
    cases hc : raw.data.contains '.' with
    | false =>
      have hc' : ¬ ('.' ∈ raw.data) := by simpa using hc
      simp [parse_value, h1, h2, h3, h4, h5, h6, hc', hi hc]
    | true =>
      have hc' : '.' ∈ raw.data := by simpa using hc
      simp [parse_value, h1, h2, h3, h4, h5, h6, hc', hf hc]

/-- Witness for C7: the dotted token `10.0.0.5` fails the float parse
and is kept verbatim. -/
theorem parse_value_total_defaults_to_string_witness :
    parse_value "10.0.0.5" = .str "10.0.0.5" :=
  parse_value_total_defaults_to_string.2 "10.0.0.5" (by decide) (by decide)
    (by decide) (by decide) (by decide) (by decide) (by decide) (by decide)

/-- C8: inserting a line that the preprocessing of source lines
104-106 skips (whitespace-only, or optional whitespace followed by a
`#` comment) at any position of the line list leaves the parse
outcome unchanged; `parse_yaml text` is by definition
`parseLines (pySplitlines text)`, so this covers every position of
the input document. -/
theorem comment_blank_line_invariance :
    ∀ (pre post : List String) (extra : String),
      stripWsBoth (effLine extra) = [] →
      parseLines (pre ++ extra :: post) = parseLines (pre ++ post) := by
  intro pre post extra hskip
  have hstep : ∀ st : PState, processLine st extra = .ok st := by
    intro st
    simp [processLine, lineCore, hskip]
  have hrun : ∀ st : PState,
      runLines st (pre ++ extra :: post) = runLines st (pre ++ post) := by
    induction pre with
    | nil =>
      intro st
      simp only [List.nil_append, runLines, hstep st]
    | cons l rest ih =>
      intro st
      simp only [List.cons_append, runLines]
      cases h : processLine st l with
      | error e => rfl
      | ok st' => exact ih st'
  simp only [parseLines, hrun initState]

/-- Witness for C8: a comment line between two mapping lines. -/
theorem comment_blank_line_invariance_witness :
    parseLines ["a: 1", "  # note", "b: 2"] = parseLines ["a: 1", "b: 2"] :=
  comment_blank_line_invariance ["a: 1"] ["b: 2"] "  # note" (by decide)
